import Mathlib

/-!
Shallow embedding of the issue aggregation/enrichment and rendering core of
the `github/rollup-and-away` repository.

Sources embedded:
- `src/2_pull/github/issue-list.ts` (classes `IssueList` and `IssueWrapper`)
- `src/3_transform/render-objects/issue.ts` (`renderIssue`)
- `src/util/config/fetch.ts` (`validateFetchParameters`, `validateRenderOptions`)
- `src/util/github-url.ts` and the string utilities bundled with it
  (`fuzzy`, `title`)

External collaborators (GraphQL client, comment list/rendering, emoji
utilities, Slack, memory) are modelled as explicit function parameters
gathered in a `Ctx` structure: the core never performs I/O itself, it only
consumes the values those collaborators return.
-/

namespace Rollup

/-! ## String utilities (from src/util string helpers) -/

/-- JS `s.replace(/[\s_]+/g, "").toUpperCase()` — the `fuzzy` key normalizer
from the repository's string utilities. -/
def fuzzy (s : String) : String :=
  String.mk ((s.data.filter (fun c => !(c.isWhitespace || c == '_'))).map Char.toUpper)

/-- JS `charAt(0).toUpperCase() + slice(1)` applied to one word. -/
def capitalizeWord (w : List Char) : List Char :=
  match w with
  | [] => []
  | c :: cs => c.toUpper :: cs

/-- Split a character list at spaces, keeping empty pieces (JS `split(" ")`). -/
def splitOnSpace (cs : List Char) : List (List Char) :=
  match cs with
  | [] => [[]]
  | c :: rest =>
    let tail := splitOnSpace rest
    if c == ' ' then [] :: tail
    else
      match tail with
      | [] => [[c]]
      | w :: ws => (c :: w) :: ws

/-- JS `join(" ")` on character-list words. -/
def joinWithSpace (ws : List (List Char)) : List Char :=
  match ws with
  | [] => []
  | [w] => w
  | w :: ws => w ++ ' ' :: joinWithSpace ws

/-- The `title` string utility: lowercase, split on spaces, capitalize each
word, join with spaces. Named `titleCase` here to avoid clashing with the
issue `title` accessors. -/
def titleCase (s : String) : String :=
  String.mk (joinWithSpace ((splitOnSpace (s.data.map Char.toLower)).map capitalizeWord))

/-- JS `String.prototype.trim`: strip leading and trailing whitespace. -/
def jsTrim (s : String) : String :=
  String.mk (((s.data.dropWhile Char.isWhitespace).reverse.dropWhile Char.isWhitespace).reverse)

/-! ## Data model -/

/-- The named source of a collection: a title and canonical URL, plus a group
key when the collection was produced by `groupBy`. -/
structure SourceOfTruth where
  title : String
  url : String
  groupKey : Option String := none
deriving DecidableEq

/-- One project ("custom") field as returned by the tracker: its kind tag and,
for single-select fields, its option texts. -/
structure ProjField where
  kind : String
  options : List String
deriving DecidableEq

/-- The project association carried by an enriched issue. -/
structure ProjectData where
  organization : String
  number : Nat
  fields : List (String × ProjField)
deriving DecidableEq

/-- An issue's optional parent reference. -/
structure Parent where
  title : String
  url : String
  number : Nat
deriving DecidableEq

/-- The raw issue record (`Issue` interface) together with the per-entity
state the embedded operations read. Comment-list derived values
(`hasUpdate`, `latestUpdate`, `latestUpdates`) come from the `CommentList`
collaborator, which is outside the sources; they are carried here as data. -/
structure IssueData where
  title : String := ""
  body : String := ""
  url : String := ""
  number : Nat := 0
  isOpen : Bool := true
  createdAtISO : String := ""
  updatedAtISO : String := ""
  typeTag : String := ""
  repoName : String := ""
  repoOwner : String := ""
  repoNameWithOwner : String := ""
  assignees : List String := []
  labels : List String := []
  parent : Option Parent := none
  isSubissue : Bool := false
  issueFields : List (String × String) := []
  project : Option ProjectData := none
  hasUpdate : Bool := false
  latestUpdate : Option String := none
  latestUpdates : Nat → List String := fun _ => []

/-- An issue collection: named source of truth, ordered entities, optional
common organization and project number, and the two fetch-state flags.
The constructor of `IssueList` initializes both flags to `false` and leaves
organization and project number unset. -/
structure IssueListOf (α : Type) where
  sourceOfTruth : SourceOfTruth
  issues : List α
  organization : Option String := none
  projectNumber : Option Nat := none
  commentsFetched : Bool := false
  projectFieldsFetched : Bool := false

/-- An issue entity (`IssueWrapper`): the wrapped record plus the optionally
attached sub-issue and related-issue collections. -/
inductive IssueW : Type where
  | mk (data : IssueData) (subissues : Option (IssueListOf IssueW))
       (relatedIssues : Option (IssueListOf IssueW))

abbrev IssueListW := IssueListOf IssueW

def IssueW.data : IssueW → IssueData
  | .mk d _ _ => d

def IssueW.subissues : IssueW → Option IssueListW
  | .mk _ s _ => s

def IssueW.relatedIssues : IssueW → Option IssueListW
  | .mk _ _ r => r

def IssueW.withSubissues : IssueW → Option IssueListW → IssueW
  | .mk d _ r, s => .mk d s r

def IssueW.withRelated : IssueW → Option IssueListW → IssueW
  | .mk d s _, r => .mk d s r

def IssueW.withProject : IssueW → Option ProjectData → IssueW
  | .mk d s r, p => .mk { d with project := p } s r

/-! Derived entity properties (the `IssueWrapper` getters). -/

def IssueW.title (i : IssueW) : String := jsTrim i.data.title

def IssueW.url (i : IssueW) : String := i.data.url

def IssueW.header (i : IssueW) : String := "[" ++ i.title ++ "](" ++ i.url ++ ")"

/-- The `_body` getter: the raw body, trimmed. The public `body` getter
returns the same string (its `remember` side effect is external). -/
def IssueW.body (i : IssueW) : String := jsTrim i.data.body

def IssueW.number (i : IssueW) : Nat := i.data.number

def IssueW.typeStr (i : IssueW) : String :=
  if i.data.isSubissue then "Subissue" else i.data.typeTag

def IssueW.repo (i : IssueW) : String := i.data.repoName

def IssueW.owner (i : IssueW) : String := i.data.repoOwner

def IssueW.repoNameWithOwner (i : IssueW) : String := i.data.repoNameWithOwner

def IssueW.projectNumberOf (i : IssueW) : Option Nat :=
  i.data.project.map (fun p => p.number)

def IssueW.rawProjectFields (i : IssueW) : List (String × ProjField) :=
  (i.data.project.map (fun p => p.fields)).getD []

/-- JS `Map.get` on an association list with unique keys. -/
def lookupStr {α : Type} (m : List (String × α)) (k : String) : Option α :=
  (m.find? (fun p => p.1 == k)).map (fun p => p.2)

/-! ## Render options and rendered fragments -/

/-- A rendered fragment: markdown plus the ordered source identifiers that
contributed to it. -/
structure Rendered where
  markdown : String
  sources : List String
deriving DecidableEq

/-- Validated render options (`IssueRenderOptions`). `subissues` and
`relatedIssues` stay unset (`none`) until `renderIssue` resolves their
defaults from the entity. -/
structure IssueRenderOptions where
  header : Bool := true
  body : Bool := false
  updates : Nat := 1
  author : Bool := true
  createdAt : Bool := false
  updatedAt : Bool := false
  fields : List String := []
  subissues : Option Bool := none
  relatedIssues : Option Bool := none
  skipIfEmpty : Bool := true
deriving DecidableEq

/-- Validated fetch parameters (`IssueFetchParameters`). -/
structure IssueFetchParameters where
  comments : Nat := 20
  projectFields : Bool := false
  issueFields : Bool := false
  subissues : Bool := false
  followLinks : Bool := false
  filter : IssueW → Bool := fun _ => true

/-- The tracker response behind `listSubissuesForIssue` plus the title/url the
collection constructor receives. -/
structure SubissuesResponse where
  title : String
  url : String
  subissues : List IssueData

/-- External collaborators, gathered as plain functions. Each field models
one interface the embedded core calls into:
`emojiOverride`/`isTrueString` the configuration store, `emojiStatus` and the
`latestUpdates` family the comment-list collaborator, `slugifyFieldName` and
`projFieldToString` the field-mapping helpers, `localeCompare`/`emojiCompare`
the comparators, `renderComment` the comment renderer, `scrapeIssueUrls` the
regex URL scraper of `src/util/github-url.ts`, `resolveUrl` the composite
`IssueWrapper.forUrl` (URL parsing plus remote issue fetch, which throws on
malformed URLs), `enrich` the per-entity `IssueWrapper.fetch` run by the
collection-level fetch, `assignComments` the application of one entity's
slice of the batched comment response, and the two `projectField` functions
the GraphQL project-field queries. -/
structure Ctx where
  emojiOverride : String := ""
  isTrueString : String → Bool := fun _ => false
  emojiStatus : String → List String → Option String := fun _ _ => none
  slugifyFieldName : String → String := fun s => s
  projFieldToString : ProjField → String := fun _ => ""
  localeCompare : String → String → Int := fun _ _ => 0
  emojiCompare : String → String → Option Int := fun _ _ => none
  renderComment : String → IssueRenderOptions → Nat → Option Rendered := fun _ _ _ => none
  latestUpdatesStrat : IssueW → Nat → Option String → List String := fun _ _ _ => []
  scrapeIssueUrls : String → List String := fun _ => []
  resolveUrl : String → Except String IssueW := fun u => .error u
  enrich : IssueFetchParameters → IssueW → IssueW := fun _ i => i
  assignComments : Nat → IssueW → IssueW := fun _ i => i
  subissuesResponse : IssueW → Except String SubissuesResponse := fun _ => .error "unavailable"
  listProjectFieldsForIssue : IssueW → Nat → List (String × ProjField) := fun _ _ => []
  projectFieldItems : String → Nat → List ((String × String × Nat) × List (String × ProjField)) :=
    fun _ _ => []

/-! ## Field and status resolution (`IssueWrapper.field` / `.status`) -/

/-- JS `String.prototype.includes`: does `hay` contain `needle` as a
contiguous segment? -/
def containsSeg (needle : List Char) : List Char → Bool
  | [] => needle.isEmpty
  | c :: t => needle.isPrefixOf (c :: t) || containsSeg needle t

/-- The project-field map, string-valued, as the templates see it
(`get projectFields`, via `mapFieldsToString`). -/
def IssueW.projectFieldsStr (ctx : Ctx) (i : IssueW) : List (String × String) :=
  i.rawProjectFields.map (fun p => (p.1, ctx.projFieldToString p.2))

/-- `IssueWrapper.field`: fixed built-in aliases matched through `fuzzy`,
then issue fields, then project fields (`issueFields.get(slug) ||
projectFields.get(slug)`, with empty strings falsy), defaulting to `""`. -/
def IssueW.field (ctx : Ctx) (i : IssueW) (fieldName : String) : String :=
  let f := fuzzy fieldName
  if f = fuzzy "title" then i.title
  else if f = fuzzy "url" then i.url
  else if f = fuzzy "number" then toString i.number
  else if f = fuzzy "body" then i.body
  else if f = fuzzy "type" then i.typeStr
  else if f = fuzzy "repo" ∨ f = fuzzy "repository" then i.repo
  else if f = fuzzy "org" ∨ f = fuzzy "organization" ∨ f = fuzzy "owner" then i.owner
  else if f = fuzzy "full_name" ∨ f = fuzzy "name_with_owner" ∨ f = fuzzy "repo_name_with_owner"
    then i.repoNameWithOwner
  else if f = fuzzy "parent" ∨ f = fuzzy "parent_issue" ∨ f = fuzzy "parent_title"
    then (i.data.parent.map (fun p => p.title)).getD ""
  else if f = fuzzy "parent_url" then (i.data.parent.map (fun p => p.url)).getD ""
  else
    let slug := ctx.slugifyFieldName fieldName
    let iv := (lookupStr i.data.issueFields slug).getD ""
    let pv := (lookupStr (IssueW.projectFieldsStr ctx i) slug).getD ""
    if iv ≠ "" then iv else pv

/-- `IssueWrapper.status`: when the emoji-override mode is configured and a
latest qualifying update exists, extract an emoji from the update's
configured sections; a found emoji is matched against a single-select
project field's options (first option containing the emoji wins), otherwise
the emoji itself is returned; in every other case fall back to `field`,
with `"No Status"` replacing an empty resolution. -/
def IssueW.status (ctx : Ctx) (i : IssueW) (fieldName : String) : String :=
  let value := IssueW.field ctx i fieldName
  let fallback := if value = "" then "No Status" else value
  match i.data.latestUpdate with
  | none => fallback
  | some update =>
    if ctx.emojiOverride ≠ "" then
      let emojiSections :=
        if ctx.isTrueString ctx.emojiOverride then ([] : List String)
        else (ctx.emojiOverride.splitOn ",").map jsTrim
      match ctx.emojiStatus update emojiSections with
      | none => fallback
      | some emoji =>
        if emoji ≠ "" then
          match lookupStr i.rawProjectFields fieldName with
          | some fl =>
            if fl.kind = "SingleSelect" then
              match fl.options.find? (fun o => containsSeg emoji.data o.data) with
              | some o => o
              | none => fallback
            else emoji
          | none => emoji
        else fallback
    else fallback

/-! ## Collection basics -/

/-- `IssueList.null()`: the canonical empty-result sentinel. -/
def IssueListOf.null : IssueListW :=
  { sourceOfTruth := { title := "No Issues", url := "" }, issues := [] }

/-- `IssueList.copy()`: a fresh collection built by the constructor (flags
`false`, no organization/project number) around the same source of truth,
whose `issues` array is then replaced by a shallow copy of the original's. -/
def IssueListOf.copy (l : IssueListW) : IssueListW :=
  { sourceOfTruth := l.sourceOfTruth, issues := l.issues }

/-- `IssueList.blame`: a copy retaining only entities whose latest qualifying
update list (per the update-detection strategies) is empty, its title
suffixed. The update attribution lives in the comment-list collaborator
(`ctx.latestUpdatesStrat`). -/
def IssueListOf.blame (ctx : Ctx) (l : IssueListW) (strategiesBlob : Option String) : IssueListW :=
  let b := l.copy
  let keep := fun i => (ctx.latestUpdatesStrat i 1 strategiesBlob).isEmpty
  let b := { b with issues := b.issues.filter keep }
  { b with sourceOfTruth :=
      { b.sourceOfTruth with title := b.sourceOfTruth.title ++ " - Stale Updates" } }

/-- The `groupKey` getter: `if (!this.sourceOfTruth.groupKey) throw`, so both
an absent key and an empty-string key (both falsy) raise; otherwise the key
is returned. -/
def IssueListOf.groupKeyGet (l : IssueListW) : Except String String :=
  match l.sourceOfTruth.groupKey with
  | none => .error "Don't use groupKey without a groupBy."
  | some k => if k = "" then .error "Don't use groupKey without a groupBy." else .ok k

/-- `IssueList.hasUpdates`: does any entity's comment list carry an update? -/
def IssueListOf.hasUpdates (l : IssueListW) : Bool :=
  l.issues.any (fun i => i.data.hasUpdate)

/-! ## Sorting and grouping -/

/-- Stable insertion into a sorted list; together with `sortBy` this models
`Array.prototype.sort` with a comparator (the sort algorithm itself is
unspecified by the source; only the comparator is). -/
def insertSorted {α : Type} (le : α → α → Bool) (x : α) : List α → List α
  | [] => [x]
  | y :: ys => if le x y then x :: y :: ys else y :: insertSorted le x ys

def sortBy {α : Type} (le : α → α → Bool) : List α → List α
  | [] => []
  | x :: xs => insertSorted le x (sortBy le xs)

/-- The group-key comparator of `groupBy`:
`emojiCompare(a, b) ?? a.localeCompare(b)`. -/
def groupKeyCompare (ctx : Ctx) (a b : String) : Int :=
  (ctx.emojiCompare a b).getD (ctx.localeCompare a b)

/-- One step of the `groupBy` loop: append the issue to its key's group,
creating the group at the end on first sight (JS `Map` preserves insertion
order). -/
def groupByStep (k : String) (i : IssueW) :
    List (String × List IssueW) → List (String × List IssueW)
  | [] => [(k, [i])]
  | (k1, is) :: rest =>
    if k1 = k then (k1, is ++ [i]) :: rest else (k1, is) :: groupByStep k i rest

/-- `IssueList.groupBy`: partition the entities by `status(fieldName)`,
tag each group with its key (an empty key becomes `"No <Title-Cased-Name>"`),
and sort the groups by key with the emoji-aware comparator. Each group is a
fresh constructor-built collection sharing the parent's title and url. -/
def IssueListOf.groupBy (ctx : Ctx) (l : IssueListW) (fieldName : String) : List IssueListW :=
  let entries := l.issues.foldl
    (fun acc i => groupByStep (IssueW.status ctx i fieldName) i acc) []
  let sorted := sortBy (fun a b => groupKeyCompare ctx a.1 b.1 ≤ 0) entries
  sorted.map (fun e =>
    { sourceOfTruth :=
        { title := l.sourceOfTruth.title, url := l.sourceOfTruth.url,
          groupKey := some (if e.1 = "" then "No " ++ titleCase fieldName else e.1) },
      issues := e.2 })

/-! ## Fetching -/

/-- The fetch parameters `followLinks` hands to the derived related-issues
`forUrls` fetch: the caller's parameters with `subissues` forced off
(`{ ...params, subissues: false } // Prevent loops`). -/
def followLinksDerivedParams (params : IssueFetchParameters) : IssueFetchParameters :=
  { params with subissues := false }

/-- The fetch parameters `fetchSubissues` hands to the nested collection:
the caller's parameters revalidated with `subissues` forced on. -/
def subissuesForcedParams (params : IssueFetchParameters) : IssueFetchParameters :=
  { params with subissues := true }

/-- `IssueWrapper.fetchProjectFields` as a transition: result is
(thrown error, entity state afterwards, whether a remote call was made).
An entity already carrying the same project number is a silent no-op; a
different number throws before any mutation; an unassociated entity gets the
remote field map attached. -/
def IssueW.fetchProjectFieldsW (ctx : Ctx) (i : IssueW) (projectNumber : Nat) :
    Option String × IssueW × Bool :=
  match i.data.project with
  | some proj =>
    if proj.number = projectNumber then (none, i, false)
    else (some ("Issue is already associated with Project #" ++ toString proj.number ++
      ", cannot fetch fields for Project #" ++ toString projectNumber ++ "."), i, false)
  | none =>
    (none,
     i.withProject (some
       { organization := i.owner, number := projectNumber,
         fields := ctx.listProjectFieldsForIssue i projectNumber }), true)

/-- Collection-level `IssueList.fetchProjectFields`: memoized by the
`projectFieldsFetched` flag; adopts a given project number when none is set;
requires a truthy common organization and project number (JS falsiness: the
empty string and 0 fail the check); initializes every entity with an empty
field map for the project, then overwrites the entities named in the remote
response, identified by (org, repo, number); finally sets the flag. -/
def IssueListOf.fetchProjectFieldsL (ctx : Ctx) (l : IssueListW) (projectNumber : Option Nat) :
    Except String IssueListW :=
  if l.projectFieldsFetched then .ok l
  else
    let l :=
      if (l.projectNumber.getD 0 == 0) && !(projectNumber.getD 0 == 0) then
        { l with projectNumber := projectNumber }
      else l
    if l.organization.getD "" = "" ∨ l.projectNumber.getD 0 = 0 then
      .error "Cannot fetch Project Fields without a common organization and projectNumber."
    else
      let org := l.organization.getD ""
      let pn := l.projectNumber.getD 0
      let items := ctx.projectFieldItems org pn
      let issues := l.issues.map (fun i =>
        let i := i.withProject (some { organization := org, number := pn, fields := [] })
        match lookupItems items i with
        | some fields => i.withProject (some { organization := org, number := pn, fields := fields })
        | none => i)
      .ok { l with issues := issues, projectFieldsFetched := true }
where
  lookupItems (items : List ((String × String × Nat) × List (String × ProjField)))
      (i : IssueW) : Option (List (String × ProjField)) :=
    (items.find? (fun it =>
      it.1.1 == i.owner && it.1.2.1 == i.repo && it.1.2.2 == i.number)).map (fun it => it.2)

/-- `IssueList.fetch` at the collection level: project fields when requested
and a project number is known, the batched comment fetch when requested and
not already done, then the caller's predicate filter, then the per-entity
fetch (`ctx.enrich`) on each surviving entity. The batched comment fetch is
applied per entity through `ctx.assignComments` (the collaborator returns a
mapping keyed by issue identity; its timeframe pre-filter and the
consistency error for responses naming absent issues live behind that
interface). The project-field error path is unreachable here (the branch
requires a present project number, and the collections this embedding runs
`fetch` on carry none), so the error case keeps the list unchanged. -/
def IssueListOf.fetchShallow (ctx : Ctx) (l : IssueListW) (params : IssueFetchParameters) :
    IssueListW :=
  let l :=
    if params.projectFields && l.projectNumber.isSome then
      match l.fetchProjectFieldsL ctx l.projectNumber with
      | .ok l2 => l2
      | .error _ => l
    else l
  let l :=
    if params.comments > 0 then
      if l.commentsFetched then l
      else { l with issues := l.issues.map (ctx.assignComments params.comments),
                    commentsFetched := true }
    else l
  let l := { l with issues := l.issues.filter params.filter }
  { l with issues := l.issues.map (ctx.enrich params) }

/-- `IssueList.forUrls`, first half: resolve each URL independently, keeping
successes in order and downgrading each failure to a warning message. -/
def forUrlsCollect (ctx : Ctx) (urls : List String) : List IssueW × List String :=
  (urls.filterMap (fun u => (ctx.resolveUrl u).toOption),
   urls.filterMap (fun u =>
     match ctx.resolveUrl u with
     | .error e => some ("Could not fetch Issue from URL " ++ u ++ ": " ++ e)
     | .ok _ => none))

/-- `IssueList.forUrls`: build a collection titled "Issues from URLs" from
the successfully resolved entities and run the collection fetch on it.
The second component is the emitted warnings. -/
def IssueListOf.forUrls (ctx : Ctx) (urls : List String) (params : IssueFetchParameters) :
    IssueListW × List String :=
  let collected := forUrlsCollect ctx urls
  let list : IssueListW :=
    { sourceOfTruth := { title := "Issues from URLs", url := "Multiple URLs" },
      issues := collected.1 }
  (list.fetchShallow ctx params, collected.2)

/-- `IssueList.forSubissues`: on a successful tracker response, a
constructor-built collection scoped to the entity's organization, run through
the collection fetch; any failure is downgraded to a warning and the null
sentinel. -/
def IssueListOf.forSubissues (ctx : Ctx) (i : IssueW) (fetchParams : IssueFetchParameters) :
    IssueListW :=
  match ctx.subissuesResponse i with
  | .ok resp =>
    let list : IssueListW :=
      { sourceOfTruth := { title := resp.title, url := resp.url },
        issues := resp.subissues.map (fun d => IssueW.mk d none none),
        organization := some i.owner }
    list.fetchShallow ctx fetchParams
  | .error _ => IssueListOf.null

/-- `IssueWrapper.fetchSubissues`: fetch the nested collection with
`subissues` forced on, then, when the entity belongs to a project, run the
collection-level project-field fetch on it (which can throw), and attach
the collection. -/
def IssueW.fetchSubissuesE (ctx : Ctx) (params : IssueFetchParameters) (i : IssueW) :
    Except String IssueW :=
  let subissues := IssueListOf.forSubissues ctx i (subissuesForcedParams params)
  match i.projectNumberOf with
  | some pn =>
    match subissues.fetchProjectFieldsL ctx (some pn) with
    | .ok sub2 => .ok (i.withSubissues (some sub2))
    | .error e => .error e
  | none => .ok (i.withSubissues (some subissues))

/-- `IssueWrapper.followLinks`: memoized on the presence of `relatedIssues`;
when a latest qualifying update exists, scrape it for issue URLs; no URLs
yields the null sentinel, otherwise the `forUrls` collection fetched with
the derived parameters; when no qualifying update exists nothing is set. -/
def IssueW.followLinksF (ctx : Ctx) (params : IssueFetchParameters) (i : IssueW) : IssueW :=
  if i.relatedIssues.isSome then i
  else
    match i.data.latestUpdate with
    | none => i
    | some update =>
      let issueUrls := ctx.scrapeIssueUrls update
      if issueUrls.isEmpty then i.withRelated (some IssueListOf.null)
      else i.withRelated (some (IssueListOf.forUrls ctx issueUrls
        (followLinksDerivedParams params)).1)

/-! ## Render-option validation key sets (`validateRenderOptions`) -/

/-- The recognized-key set the validator actually checks against
(`validKeys` in `src/util/config/fetch.ts`). -/
def renderOptionValidKeys : List String :=
  ["header", "body", "updates", "author", "createdAt", "updatedAt",
   "field", "fields", "subissues", "skipIfEmpty"]

/-- The recognized-key set the specification documents. -/
def renderOptionDocumentedKeys : List String :=
  ["header", "body", "updates", "author", "createdAt", "updatedAt",
   "field", "fields", "subissues", "relatedIssues", "skipIfEmpty"]

/-- The keys of an option object the validator rejects. -/
def invalidRenderOptionKeys (keys : List String) : List String :=
  keys.filter (fun k => !(renderOptionValidKeys.contains k))

/-- Whether `validateRenderOptions` passes the invalid-key check (it throws
exactly when some key is outside `renderOptionValidKeys`). -/
def renderOptionsKeyCheckPasses (keys : List String) : Bool :=
  (invalidRenderOptionKeys keys).isEmpty

/-! ## The rendering pipeline (`renderIssue`) -/

/-- JS `"#".repeat(n)`. -/
def hashes (n : Nat) : String := String.mk (List.replicate n '#')

/-- The in-place defaulting `renderIssue` performs on its options object:
render sub-issues (resp. related issues) by default exactly when the entity
has that collection attached. -/
def resolveRenderOptions (i : IssueW) (o : IssueRenderOptions) : IssueRenderOptions :=
  let o1 := if o.subissues.isNone then { o with subissues := some i.subissues.isSome } else o
  if o1.relatedIssues.isNone then { o1 with relatedIssues := some i.relatedIssues.isSome } else o1

/-- The emptiness test of `renderIssue` (with options already resolved):
no requested-and-present updates, no requested-and-nonempty body, and no
requested-and-present sub-issue collection carrying updates. -/
def renderIsEmpty (options : IssueRenderOptions) (i : IssueW) : Bool :=
  (options.updates == 0 || !i.data.hasUpdate) &&
  (!options.body || i.body == "") &&
  (!(options.subissues.getD false) || i.subissues.isNone ||
    !((i.subissues.getD IssueListOf.null).hasUpdates))

/-- One iteration of the fragment-appending loops: a successfully rendered
nested fragment appends its markdown (plus a blank line) and pushes its
sources; a failed one is skipped. -/
def renderStep (acc : String × List String) (fr : Option Rendered) : String × List String :=
  match fr with
  | none => acc
  | some r => (acc.1 ++ r.markdown ++ "\n\n", acc.2 ++ r.sources)

/-- The body of `renderIssue` with the three nested-fragment lists (rendered
updates, sub-issues, related issues) supplied by the caller; `fieldValue` is
the entity's field resolver. Mirrors the source order: header, emptiness
rule, timestamps, named fields, body, updates, sub-issues (closed by a
horizontal rule), related issues (same). -/
def renderCore (issue : IssueW) (options : IssueRenderOptions) (headerLevel : Nat)
    (fieldValue : String → String)
    (updFrs subFrs relFrs : List (Option Rendered)) : Option Rendered :=
  let md0 := if options.header then hashes headerLevel ++ " " ++ issue.header ++ "\n\n" else ""
  if renderIsEmpty options issue then
    if options.skipIfEmpty || !options.header then none
    else some { markdown := md0 ++ "This Issue has no updates, or body content to render.\n\n",
                sources := [issue.url] }
  else
    let md1 := md0 ++ (if options.createdAt then "Issue Opened: " ++ issue.data.createdAtISO else "")
    let md2 := md1 ++ (if options.updatedAt then "Issue Edited: " ++ issue.data.updatedAtISO else "")
    let fieldLine := fun fn =>
      let v := fieldValue fn
      if v == "" then "" else "**" ++ fn ++ ":** " ++ v ++ "\n"
    let md3 := md2 ++
      (if options.fields.isEmpty then "" else String.join (options.fields.map fieldLine) ++ "\n")
    let md4 := md3 ++ (if options.body then issue.body ++ "\n\n" else "")
    let acc5 :=
      if options.updates == 0 then (md4, [issue.url])
      else updFrs.foldl renderStep (md4, [issue.url])
    let acc6 :=
      if options.subissues.getD false && issue.subissues.isSome then
        let p := subFrs.foldl renderStep acc5
        (p.1 ++ "---\n\n", p.2)
      else acc5
    let acc7 :=
      if options.relatedIssues.getD false && issue.relatedIssues.isSome then
        let p := relFrs.foldl renderStep acc6
        (p.1 ++ "---\n\n", p.2)
      else acc6
    some { markdown := acc7.1, sources := acc7.2 }

theorem sizeOf_lt_of_mem_sub {s : IssueW} {sub : IssueListW} {i : IssueW}
    (hmem : s ∈ sub.issues) (h : i.subissues = some sub) : sizeOf s < sizeOf i := by
  rcases i with ⟨d, so, r⟩
  simp only [IssueW.subissues] at h
  subst h
  have h1 : sizeOf s < sizeOf sub.issues := List.sizeOf_lt_of_mem hmem
  rcases sub with ⟨a, b, c, e, f, g⟩
  simp only [IssueW.mk.sizeOf_spec, Option.some.sizeOf_spec,
    IssueListOf.mk.sizeOf_spec] at h1 ⊢
  omega

theorem sizeOf_lt_of_mem_rel {s : IssueW} {rel : IssueListW} {i : IssueW}
    (hmem : s ∈ rel.issues) (h : i.relatedIssues = some rel) : sizeOf s < sizeOf i := by
  rcases i with ⟨d, so, r⟩
  simp only [IssueW.relatedIssues] at h
  subst h
  have h1 : sizeOf s < sizeOf rel.issues := List.sizeOf_lt_of_mem hmem
  rcases rel with ⟨a, b, c, e, f, g⟩
  simp only [IssueW.mk.sizeOf_spec, Option.some.sizeOf_spec,
    IssueListOf.mk.sizeOf_spec] at h1 ⊢
  omega

/-- `renderIssue`: resolve the option defaults from the entity, render each
of the up-to-N latest updates through the comment-rendering collaborator,
render every attached sub-issue and related issue recursively one header
level deeper, and assemble the fragment. (The source computes the nested
fragments lazily inside the non-empty branch; computing them eagerly here is
observationally identical because rendering is pure.) -/
def IssueW.renderIssue (ctx : Ctx) (issue : IssueW) (options0 : IssueRenderOptions)
    (headerLevel : Nat) : Option Rendered :=
  let options := resolveRenderOptions issue options0
  let updFrs := (issue.data.latestUpdates options.updates).map
      (fun u => ctx.renderComment u options (headerLevel + 1))
  let subFrs :=
    match hsub : issue.subissues with
    | none => []
    | some sub => sub.issues.attach.map
        (fun s => IssueW.renderIssue ctx s.1 options (headerLevel + 1))
  let relFrs :=
    match hrel : issue.relatedIssues with
    | none => []
    | some rel => rel.issues.attach.map
        (fun s => IssueW.renderIssue ctx s.1 options (headerLevel + 1))
  renderCore issue options headerLevel (IssueW.field ctx issue) updFrs subFrs relFrs
termination_by sizeOf issue
decreasing_by
  · exact sizeOf_lt_of_mem_sub s.2 hsub
  · exact sizeOf_lt_of_mem_rel s.2 hrel

/-! ## Theorems -/

/-- C1: the fetch configuration `followLinks` hands to the derived
related-issues fetch (`IssueList.forUrls(issueUrls, { ...params,
subissues: false })`) leaves `followLinks` exactly as the caller set it and
only disables `subissues`: link-following is NOT disabled on the derived
fetch, so a related issue's own fetch performs link-following whenever the
original fetch did. -/
theorem followLinks_derived_params_keep_followLinks (params : IssueFetchParameters) :
    (followLinksDerivedParams params).followLinks = params.followLinks ∧
    (followLinksDerivedParams params).subissues = false :=
  ⟨rfl, rfl⟩

/-- A collection with both fetch flags set, used to exhibit that `copy` and
`blame` drop them. -/
def c5List : IssueListW :=
  { sourceOfTruth := { title := "Sprint", url := "https://example.test/p" },
    issues := [], commentsFetched := true, projectFieldsFetched := true }

/-- C5 counterexample: a collection with both flags `true` whose `copy` and
`blame` derivatives carry both flags `false` — the derivatives do not
inherit the flags' truth values. -/
theorem copy_blame_flags_dropped_counterexample :
    c5List.commentsFetched = true ∧ c5List.projectFieldsFetched = true ∧
    c5List.copy.commentsFetched = false ∧ c5List.copy.projectFieldsFetched = false ∧
    (c5List.blame {} none).commentsFetched = false ∧
    (c5List.blame {} none).projectFieldsFetched = false :=
  ⟨rfl, rfl, rfl, rfl, rfl, rfl⟩

/-- C5 (amended): the collections derived by `copy()` and `blame()` always
carry `false` for both fetch flags, regardless of the original's values —
they are constructor-built collections (flags reset), not flag-inheriting
derivatives; the entities themselves are shared (the copy's issue list is
the original's). -/
theorem copy_blame_flags_reset (ctx : Ctx) (l : IssueListW) (sb : Option String) :
    l.copy.commentsFetched = false ∧ l.copy.projectFieldsFetched = false ∧
    l.copy.issues = l.issues ∧
    (l.blame ctx sb).commentsFetched = false ∧
    (l.blame ctx sb).projectFieldsFetched = false :=
  ⟨rfl, rfl, rfl, rfl, rfl⟩

/-- C9: the key `relatedIssues` is in the documented render-option key set
but is rejected by `validateRenderOptions` (its `validKeys` set omits it),
while every other documented key passes the check. -/
theorem validateRenderOptions_rejects_relatedIssues :
    "relatedIssues" ∈ renderOptionDocumentedKeys ∧
    renderOptionsKeyCheckPasses ["relatedIssues"] = false ∧
    renderOptionsKeyCheckPasses (renderOptionDocumentedKeys.erase "relatedIssues") = true :=
  ⟨by decide, by decide, by decide⟩

/-- C3: on an entity already associated with a project, fetching project
fields for a different project number throws (returning the entity's state
unchanged and performing no remote call), while fetching for the same
number is a silent no-op with no remote call. The third component of
`fetchProjectFieldsW` records whether the remote field query ran. -/
theorem fetchProjectFields_single_project_invariant (ctx : Ctx) (i : IssueW)
    (proj : ProjectData) (p2 : Nat) (hp : i.data.project = some proj)
    (hne : p2 ≠ proj.number) :
    IssueW.fetchProjectFieldsW ctx i p2 =
      (some ("Issue is already associated with Project #" ++ toString proj.number ++
        ", cannot fetch fields for Project #" ++ toString p2 ++ "."), i, false) ∧
    IssueW.fetchProjectFieldsW ctx i proj.number = (none, i, false) := by
  constructor
  · unfold IssueW.fetchProjectFieldsW
    rw [hp]
    dsimp only
    rw [if_neg (fun h => hne h.symm)]
  · unfold IssueW.fetchProjectFieldsW
    rw [hp]
    dsimp only
    simp

/-- An entity already carrying fields for project number 1. -/
def c3Issue : IssueW :=
  IssueW.mk
    { title := "Tracked", url := "https://github.com/o/r/issues/5",
      repoName := "r", repoOwner := "o",
      project := some { organization := "o", number := 1, fields := [] } }
    none none

theorem containsSeg_nil (needle : List Char) : containsSeg needle [] = needle.isEmpty := rfl

theorem ne_empty_of_containsSeg {e o : String} (h : containsSeg e.data o.data = true)
    (he : e ≠ "") : o ≠ "" := by
  intro ho
  apply he
  subst ho
  have h2 : containsSeg e.data [] = true := h
  rw [containsSeg_nil, List.isEmpty_iff] at h2
  cases e
  simp only at h2
  rw [h2]

/-- Every branch of `status` yields a nonempty string: the single-select
option contains the (nonempty) emoji, the bare emoji is guarded nonempty,
and the `field` fallback substitutes `"No Status"` for an empty value. -/
theorem status_ne_empty (ctx : Ctx) (i : IssueW) (f : String) :
    IssueW.status ctx i f ≠ "" := by
  have hfb : (if IssueW.field ctx i f = "" then "No Status" else IssueW.field ctx i f) ≠ "" := by
    split
    · decide
    · next h => exact h
  unfold IssueW.status
  dsimp only
  split
  · exact hfb
  · split
    · split
      · exact hfb
      · next emoji hst =>
        split
        · next hemoji =>
          split
          · next fl hlk =>
            split
            · split
              · next o hfind =>
                have hseg : containsSeg emoji.data o.data = true := by
                  simpa using List.find?_some hfind
                exact ne_empty_of_containsSeg hseg hemoji
              · exact hfb
            · exact hemoji
          · exact hemoji
        · exact hfb
    · exact hfb

/-- The entities of a list of groups, in order. -/
def flatGroups (acc : List (String × List IssueW)) : List IssueW :=
  acc.flatMap (fun e => e.2)

theorem flatGroups_cons (k : String) (is : List IssueW) (tl : List (String × List IssueW)) :
    flatGroups ((k, is) :: tl) = is ++ flatGroups tl := rfl

theorem flatGroups_step (k : String) (x : IssueW) (acc : List (String × List IssueW)) :
    (flatGroups (groupByStep k x acc)).Perm (flatGroups acc ++ [x]) := by
  induction acc with
  | nil => exact List.Perm.refl _
  | cons hd tl ih =>
    obtain ⟨k1, is⟩ := hd
    by_cases hk : k1 = k
    · unfold groupByStep
      rw [if_pos hk, flatGroups_cons, flatGroups_cons,
        List.append_assoc, List.append_assoc]
      exact List.Perm.append_left is List.perm_append_comm
    · unfold groupByStep
      rw [if_neg hk, flatGroups_cons, flatGroups_cons, List.append_assoc]
      exact List.Perm.append_left is ih

theorem flatGroups_foldl (g : IssueW → String) (xs : List IssueW)
    (acc : List (String × List IssueW)) :
    (flatGroups (xs.foldl (fun a i => groupByStep (g i) i a) acc)).Perm
      (flatGroups acc ++ xs) := by
  induction xs generalizing acc with
  | nil =>
    rw [List.foldl_nil, List.append_nil]
  | cons x t ih =>
    rw [List.foldl_cons]
    have h3 := (ih (groupByStep (g x) x acc)).trans
      ((flatGroups_step (g x) x acc).append_right t)
    rw [List.append_assoc, List.singleton_append] at h3
    exact h3

theorem insertSorted_perm {α : Type} (le : α → α → Bool) (x : α) (l : List α) :
    (insertSorted le x l).Perm (x :: l) := by
  induction l with
  | nil => exact List.Perm.refl _
  | cons y ys ih =>
    unfold insertSorted
    split
    · exact List.Perm.refl _
    · exact (ih.cons y).trans (List.Perm.swap x y ys)

theorem sortBy_perm {α : Type} (le : α → α → Bool) (l : List α) :
    (sortBy le l).Perm l := by
  induction l with
  | nil => exact List.Perm.refl _
  | cons x t ih =>
    unfold sortBy
    exact (insertSorted_perm le x (sortBy le t)).trans (ih.cons x)

theorem groupByStep_inv (g : IssueW → String) (k : String) (x : IssueW)
    (acc : List (String × List IssueW))
    (hacc : ∀ e ∈ acc, ∀ i ∈ e.2, g i = e.1) (hx : g x = k) :
    ∀ e ∈ groupByStep k x acc, ∀ i ∈ e.2, g i = e.1 := by
  induction acc with
  | nil =>
    intro e he i hi
    unfold groupByStep at he
    rw [List.mem_singleton] at he
    subst he
    rw [List.mem_singleton] at hi
    subst hi
    exact hx
  | cons hd tl ih =>
    obtain ⟨k1, is⟩ := hd
    by_cases hk : k1 = k
    · unfold groupByStep
      rw [if_pos hk]
      intro e he i hi
      rcases List.mem_cons.mp he with he1 | he1
      · subst he1
        rcases List.mem_append.mp hi with hi1 | hi1
        · exact hacc (k1, is) (List.mem_cons_self (k1, is) tl) i hi1
        · rw [List.mem_singleton] at hi1
          subst hi1
          rw [hx, hk]
      · exact hacc e (List.mem_cons_of_mem _ he1) i hi
    · unfold groupByStep
      rw [if_neg hk]
      intro e he i hi
      rcases List.mem_cons.mp he with he1 | he1
      · subst he1
        exact hacc (k1, is) (List.mem_cons_self (k1, is) tl) i hi
      · exact ih (fun e2 he2 => hacc e2 (List.mem_cons_of_mem _ he2)) e he1 i hi

theorem groupBy_entries_inv (g : IssueW → String) (xs : List IssueW)
    (acc : List (String × List IssueW))
    (hacc : ∀ e ∈ acc, ∀ i ∈ e.2, g i = e.1) :
    ∀ e ∈ xs.foldl (fun a i => groupByStep (g i) i a) acc, ∀ i ∈ e.2, g i = e.1 := by
  induction xs generalizing acc with
  | nil => exact hacc
  | cons x t ih =>
    rw [List.foldl_cons]
    exact ih _ (groupByStep_inv g (g x) x acc hacc rfl)

/-- C4: flattening the groups returned by `groupBy(f)` yields the original
collection's entities as a multiset, and every entity of a group resolves
`f` through `status` to exactly the group's key. -/
theorem groupBy_partitions_by_status (ctx : Ctx) (l : IssueListW) (f : String) :
    ((IssueListOf.groupBy ctx l f).flatMap (fun g => g.issues)).Perm l.issues ∧
    (IssueListOf.groupBy ctx l f).all (fun g =>
      g.issues.all (fun i =>
        g.sourceOfTruth.groupKey == some (IssueW.status ctx i f))) = true := by
  constructor
  · unfold IssueListOf.groupBy
    dsimp only
    rw [List.flatMap_map]
    dsimp only
    have hsorted := (sortBy_perm
      (fun a b => groupKeyCompare ctx a.1 b.1 ≤ 0)
      (l.issues.foldl (fun acc i => groupByStep (IssueW.status ctx i f) i acc) [])
      ).flatMap_right (fun e => e.2)
    have hfold := flatGroups_foldl (fun i => IssueW.status ctx i f) l.issues []
    unfold flatGroups at hsorted hfold
    simp only [List.flatMap_nil, List.nil_append] at hfold
    exact hsorted.trans hfold
  · rw [List.all_eq_true]
    intro g hg
    rw [List.all_eq_true]
    intro i hi
    unfold IssueListOf.groupBy at hg
    dsimp only at hg
    rw [List.mem_map] at hg
    obtain ⟨e, he, rfl⟩ := hg
    dsimp only at hi ⊢
    have hinv : IssueW.status ctx i f = e.1 :=
      groupBy_entries_inv (fun i => IssueW.status ctx i f) l.issues []
        (by intro e2 he2; cases he2) e
        (((sortBy_perm _ _).mem_iff).mp he) i hi
    rw [beq_iff_eq]
    have hne : e.1 ≠ "" := by
      rw [← hinv]
      exact status_ne_empty ctx i f
    rw [if_neg hne, hinv]

/-- A bare issue and a singleton collection used to exercise `groupBy`
concretely. -/
def c10Issue : IssueW := IssueW.mk { title := "A", url := "uA" } none none

def c10List : IssueListW :=
  { sourceOfTruth := { title := "L", url := "lu" }, issues := [c10Issue] }

def c10Group : IssueListW :=
  { sourceOfTruth := { title := "L", url := "lu", groupKey := some "A" },
    issues := [c10Issue] }

/-- C10: reading `groupKey` on a collection whose source of truth carries no
group key throws; on any collection produced by `groupBy` it returns the
group's key. -/
theorem groupKey_guarded_access (l0 : IssueListW) (ctx : Ctx) (l : IssueListW)
    (f : String) (g : IssueListW) :
    (l0.sourceOfTruth.groupKey = none →
      l0.groupKeyGet = .error "Don't use groupKey without a groupBy.") ∧
    (g ∈ IssueListOf.groupBy ctx l f →
      ∃ k, g.sourceOfTruth.groupKey = some k ∧ g.groupKeyGet = .ok k) := by
  constructor
  · intro h
    unfold IssueListOf.groupKeyGet
    rw [h]
  · intro hg
    unfold IssueListOf.groupBy at hg
    dsimp only at hg
    rw [List.mem_map] at hg
    obtain ⟨e, _, rfl⟩ := hg
    refine ⟨_, rfl, ?_⟩
    unfold IssueListOf.groupKeyGet
    dsimp only
    rw [if_neg ?hne]
    case hne =>
      by_cases hk : e.1 = ""
      · rw [if_pos hk]
        intro hcontra
        have hdata := congrArg String.data hcontra
        rw [String.data_append] at hdata
        simp at hdata
      · rw [if_neg hk]
        exact hk

theorem groupKey_guarded_access_witness :
    c5List.sourceOfTruth.groupKey = none ∧
    c10Group ∈ IssueListOf.groupBy {} c10List "title" ∧
    c5List.groupKeyGet = .error "Don't use groupKey without a groupBy." ∧
    (∃ k, c10Group.sourceOfTruth.groupKey = some k ∧ c10Group.groupKeyGet = .ok k) := by
  have hmem : c10Group ∈ IssueListOf.groupBy {} c10List "title" := by
    have h : IssueListOf.groupBy {} c10List "title" = [c10Group] := rfl
    rw [h]
    exact List.mem_singleton.mpr rfl
  exact ⟨rfl, hmem,
    (groupKey_guarded_access c5List {} c10List "title" c10Group).1 rfl,
    (groupKey_guarded_access c5List {} c10List "title" c10Group).2 hmem⟩

theorem fetchProjectFields_single_project_invariant_witness :
    c3Issue.data.project = some { organization := "o", number := 1, fields := [] } ∧
    (2 : Nat) ≠ 1 ∧
    (IssueW.fetchProjectFieldsW {} c3Issue 2 =
      (some ("Issue is already associated with Project #" ++ toString (1 : Nat) ++
        ", cannot fetch fields for Project #" ++ toString (2 : Nat) ++ "."), c3Issue, false) ∧
     IssueW.fetchProjectFieldsW {} c3Issue 1 = (none, c3Issue, false)) :=
  ⟨rfl, by decide,
   fetchProjectFields_single_project_invariant {} c3Issue
     { organization := "o", number := 1, fields := [] } 2 rfl (by decide)⟩

theorem IssueW.subissues_withSubissues (i : IssueW) (s : Option IssueListW) :
    (i.withSubissues s).subissues = s := by
  cases i
  rfl

theorem IssueW.relatedIssues_withRelated (i : IssueW) (r : Option IssueListW) :
    (i.withRelated r).relatedIssues = r := by
  cases i
  rfl

/-- An entity that belongs to project 7, used to exhibit the throwing path of
`fetchSubissues` when the sub-issue fetch fails (null sentinel without an
organization) while the entity carries a project number. -/
def c6Issue : IssueW :=
  IssueW.mk
    { title := "Parent", url := "https://github.com/org/r/issues/9",
      repoName := "r", repoOwner := "org",
      project := some { organization := "org", number := 7, fields := [] } }
    none none

/-- C6 counterexample: when the remote sub-issue call fails (the collaborator
returns an error, downgraded to the null sentinel) and the entity carries a
project number, `fetchSubissues` throws out of the project-field fetch on
the organization-less null sentinel — no collection is attached, so a
sub-issue fetch does NOT always attach a collection. -/
theorem fetchSubissues_throws_counterexample :
    IssueW.fetchSubissuesE {} {} c6Issue =
      .error "Cannot fetch Project Fields without a common organization and projectNumber." :=
  rfl

/-- A bare entity: no project, no attached collections, no updates. -/
def c6Plain : IssueW := IssueW.mk {} none none

/-- C6 (amended): an entity with no qualifying latest comment keeps
`relatedIssues` absent (it is never set, not even to the empty sentinel);
a sub-issue fetch attaches a collection (possibly the null sentinel)
whenever it returns normally, and it always returns normally when the
entity carries no project number — but it can throw (attaching nothing)
when the sub-issue fetch failed and the entity belongs to a project. -/
theorem followLinks_absent_and_fetchSubissues (ctx : Ctx) (p : IssueFetchParameters)
    (i r : IssueW) :
    (i.relatedIssues = none → i.data.latestUpdate = none →
      (IssueW.followLinksF ctx p i).relatedIssues = none) ∧
    (IssueW.fetchSubissuesE ctx p i = .ok r → r.subissues.isSome = true) ∧
    (i.projectNumberOf = none →
      IssueW.fetchSubissuesE ctx p i =
        .ok (i.withSubissues (some (IssueListOf.forSubissues ctx i
          (subissuesForcedParams p))))) := by
  refine ⟨?_, ?_, ?_⟩
  · intro h1 h2
    simp [IssueW.followLinksF, h1, h2]
  · intro h
    unfold IssueW.fetchSubissuesE at h
    cases hpn : i.projectNumberOf with
    | some pn =>
      rw [hpn] at h
      dsimp only at h
      cases hf : IssueListOf.fetchProjectFieldsL ctx
          (IssueListOf.forSubissues ctx i (subissuesForcedParams p)) (some pn) with
      | ok sub2 =>
        rw [hf] at h
        dsimp only at h
        injection h with h
        rw [← h, IssueW.subissues_withSubissues]
        rfl
      | error e =>
        rw [hf] at h
        exact absurd h (by simp)
    | none =>
      rw [hpn] at h
      dsimp only at h
      injection h with h
      rw [← h, IssueW.subissues_withSubissues]
      rfl
  · intro hpn
    unfold IssueW.fetchSubissuesE
    rw [hpn]

theorem followLinks_absent_and_fetchSubissues_witness :
    c6Plain.relatedIssues = none ∧
    c6Plain.data.latestUpdate = none ∧
    c6Plain.projectNumberOf = none ∧
    (IssueW.followLinksF {} {} c6Plain).relatedIssues = none ∧
    (∃ r, IssueW.fetchSubissuesE {} {} c6Plain = .ok r ∧ r.subissues.isSome = true) := by
  have hok : IssueW.fetchSubissuesE {} {} c6Plain =
      .ok (c6Plain.withSubissues (some (IssueListOf.forSubissues {} c6Plain
        (subissuesForcedParams {})))) :=
    (followLinks_absent_and_fetchSubissues {} {} c6Plain c6Plain).2.2 rfl
  exact ⟨rfl, rfl, rfl,
    (followLinks_absent_and_fetchSubissues {} {} c6Plain c6Plain).1 rfl rfl,
    ⟨_, hok, (followLinks_absent_and_fetchSubissues {} {} c6Plain _).2.1 hok⟩⟩

/-- A context whose URL resolution always fails (every URL malformed). -/
def c8BadCtx : Ctx :=
  { resolveUrl := fun u => .error ("Invalid Issue URL: " ++ u) }

/-- C8 counterexample: when every reference fails, `forUrls` does not return
the null sentinel (title "No Issues"); it returns an empty collection still
titled "Issues from URLs" (with one warning per failure). -/
theorem forUrls_total_failure_not_null_counterexample :
    (IssueListOf.forUrls c8BadCtx ["bad1", "bad2"] {}).1.sourceOfTruth.title
        = "Issues from URLs" ∧
    ¬ (IssueListOf.forUrls c8BadCtx ["bad1", "bad2"] {}).1.sourceOfTruth.title
        = "No Issues" ∧
    (IssueListOf.forUrls c8BadCtx ["bad1", "bad2"] {}).1.issues = [] ∧
    (IssueListOf.forUrls c8BadCtx ["bad1", "bad2"] {}).2.length = 2 :=
  ⟨rfl, by decide, rfl, rfl⟩

/-- The net per-entity transformation the collection fetch applies to each
member that survives the filter: the batched comment assignment (when
comments were requested) followed by the per-entity fetch. -/
def postFetch (ctx : Ctx) (params : IssueFetchParameters) (i : IssueW) : IssueW :=
  ctx.enrich params (if params.comments > 0 then ctx.assignComments params.comments i else i)

theorem forUrlsCollect_warnings_length (ctx : Ctx) (urls : List String) :
    (forUrlsCollect ctx urls).2.length =
      (urls.filter (fun u => match ctx.resolveUrl u with
        | .error _ => true
        | .ok _ => false)).length := by
  unfold forUrlsCollect
  dsimp only
  induction urls with
  | nil => rfl
  | cons u t ih =>
    rw [List.filterMap_cons, List.filter_cons]
    cases h : ctx.resolveUrl u with
    | error e => simp [ih]
    | ok v => simp [ih]

theorem fetchShallow_plain (ctx : Ctx) (l : IssueListW) (params : IssueFetchParameters)
    (hpn : l.projectNumber = none) (hcf : l.commentsFetched = false)
    (hfilter : ∀ i, params.filter i = true) :
    (l.fetchShallow ctx params).issues = l.issues.map (postFetch ctx params) ∧
    (l.fetchShallow ctx params).sourceOfTruth = l.sourceOfTruth := by
  unfold IssueListOf.fetchShallow
  simp only [hpn, hcf, Option.isSome_none, Bool.and_false, Bool.false_eq_true, if_false]
  by_cases hc : params.comments > 0
  · simp only [if_pos hc]
    rw [List.filter_eq_self.mpr (fun a _ => hfilter a), List.map_map]
    constructor
    · apply congrFun
      apply congrArg
      funext i
      simp [postFetch, Function.comp, if_pos hc]
    · trivial
  · simp only [if_neg hc]
    rw [List.filter_eq_self.mpr (fun a _ => hfilter a)]
    constructor
    · apply congrFun
      apply congrArg
      funext i
      simp [postFetch, if_neg hc]
    · trivial

/-- C8 (amended): `forUrls` never throws on individual resolution failures:
with a pass-all filter, the resulting collection holds exactly the
successfully resolved entities, in input order (each put through the
collection fetch's per-entity enrichment), one warning is emitted per
failing reference, and the collection — even on total failure — is titled
"Issues from URLs", not the "No Issues" null sentinel. -/
theorem forUrls_failure_tolerant (ctx : Ctx) (urls : List String)
    (params : IssueFetchParameters) (hfilter : ∀ i, params.filter i = true) :
    (IssueListOf.forUrls ctx urls params).1.issues =
      (urls.filterMap (fun u => (ctx.resolveUrl u).toOption)).map (postFetch ctx params) ∧
    (IssueListOf.forUrls ctx urls params).2.length =
      (urls.filter (fun u => match ctx.resolveUrl u with
        | .error _ => true
        | .ok _ => false)).length ∧
    (IssueListOf.forUrls ctx urls params).1.sourceOfTruth.title = "Issues from URLs" := by
  refine ⟨?_, forUrlsCollect_warnings_length ctx urls, ?_⟩
  · exact (fetchShallow_plain ctx _ params rfl rfl hfilter).1
  · rw [show (IssueListOf.forUrls ctx urls params).1.sourceOfTruth =
      { title := "Issues from URLs", url := "Multiple URLs" } from
        (fetchShallow_plain ctx _ params rfl rfl hfilter).2]

def c8u1 : IssueW := IssueW.mk { title := "I1", url := "https://github.com/o/r/issues/1" } none none

def c8u2 : IssueW := IssueW.mk { title := "I2", url := "https://github.com/o/r/issues/2" } none none

/-- A context resolving two known URLs and failing on everything else. -/
def c8MixedCtx : Ctx :=
  { resolveUrl := fun u =>
      if u = "https://github.com/o/r/issues/1" then .ok c8u1
      else if u = "https://github.com/o/r/issues/2" then .ok c8u2
      else .error ("Invalid Issue URL: " ++ u) }

def c8Urls : List String :=
  ["bad url", "https://github.com/o/r/issues/1", "https://github.com/o/r/issues/2"]

theorem forUrls_failure_tolerant_witness :
    (∀ i, ({} : IssueFetchParameters).filter i = true) ∧
    ((IssueListOf.forUrls c8MixedCtx c8Urls {}).1.issues =
        (c8Urls.filterMap (fun u => (c8MixedCtx.resolveUrl u).toOption)).map
          (postFetch c8MixedCtx {}) ∧
     (IssueListOf.forUrls c8MixedCtx c8Urls {}).2.length =
        (c8Urls.filter (fun u => match c8MixedCtx.resolveUrl u with
          | .error _ => true
          | .ok _ => false)).length ∧
     (IssueListOf.forUrls c8MixedCtx c8Urls {}).1.sourceOfTruth.title = "Issues from URLs") ∧
    (IssueListOf.forUrls c8MixedCtx c8Urls {}).1.issues = [c8u1, c8u2] ∧
    (IssueListOf.forUrls c8MixedCtx c8Urls {}).2.length = 1 :=
  ⟨fun _ => rfl, forUrls_failure_tolerant c8MixedCtx c8Urls {} (fun _ => rfl), rfl, rfl⟩

/-! ## Rendering: fragment decomposition and option-resolution stability -/

/-- The update fragments `renderIssue` attempts to render (successes and
failures), before filtering out the failed ones. -/
def updOptFragments (ctx : Ctx) (i : IssueW) (opts : IssueRenderOptions) (hL : Nat) :
    List (Option Rendered) :=
  (i.data.latestUpdates opts.updates).map (fun u => ctx.renderComment u opts (hL + 1))

/-- The sub-issue fragments `renderIssue` attempts to render. -/
def subOptFragments (ctx : Ctx) (i : IssueW) (opts : IssueRenderOptions) (hL : Nat) :
    List (Option Rendered) :=
  match i.subissues with
  | none => []
  | some sub => sub.issues.map (fun s => IssueW.renderIssue ctx s opts (hL + 1))

/-- The related-issue fragments `renderIssue` attempts to render. -/
def relOptFragments (ctx : Ctx) (i : IssueW) (opts : IssueRenderOptions) (hL : Nat) :
    List (Option Rendered) :=
  match i.relatedIssues with
  | none => []
  | some rel => rel.issues.map (fun s => IssueW.renderIssue ctx s opts (hL + 1))

/-- The successfully rendered update fragments. -/
def updateFragments (ctx : Ctx) (i : IssueW) (opts : IssueRenderOptions) (hL : Nat) :
    List Rendered :=
  (i.data.latestUpdates opts.updates).filterMap (fun u => ctx.renderComment u opts (hL + 1))

/-- The successfully rendered sub-issue fragments. -/
def subissueFragments (ctx : Ctx) (i : IssueW) (opts : IssueRenderOptions) (hL : Nat) :
    List Rendered :=
  match i.subissues with
  | none => []
  | some sub => sub.issues.filterMap (fun s => IssueW.renderIssue ctx s opts (hL + 1))

/-- The successfully rendered related-issue fragments. -/
def relatedFragments (ctx : Ctx) (i : IssueW) (opts : IssueRenderOptions) (hL : Nat) :
    List Rendered :=
  match i.relatedIssues with
  | none => []
  | some rel => rel.issues.filterMap (fun s => IssueW.renderIssue ctx s opts (hL + 1))

/-- The sources of every nested fragment a render of the entity includes:
nothing in the empty/placeholder case, otherwise the accumulated sources of
the rendered updates, sub-issues and related issues actually appended. -/
def includedNestedSources (ctx : Ctx) (i : IssueW) (o : IssueRenderOptions) (hL : Nat) :
    List String :=
  let opts := resolveRenderOptions i o
  if renderIsEmpty opts i then []
  else
    (if opts.updates == 0 then [] else
      (updateFragments ctx i opts hL).flatMap Rendered.sources) ++
    (if opts.subissues.getD false && i.subissues.isSome then
      (subissueFragments ctx i opts hL).flatMap Rendered.sources else []) ++
    (if opts.relatedIssues.getD false && i.relatedIssues.isSome then
      (relatedFragments ctx i opts hL).flatMap Rendered.sources else [])

theorem foldl_renderStep_snd (frs : List (Option Rendered)) (p : String × List String) :
    (frs.foldl renderStep p).2 = p.2 ++ (frs.filterMap id).flatMap Rendered.sources := by
  induction frs generalizing p with
  | nil => simp
  | cons f t ih =>
    cases f with
    | none => simp [renderStep, ih]
    | some r => simp [renderStep, ih, List.append_assoc]

theorem updOpt_filterMap (ctx : Ctx) (i : IssueW) (opts : IssueRenderOptions) (hL : Nat) :
    (updOptFragments ctx i opts hL).filterMap id = updateFragments ctx i opts hL := by
  unfold updOptFragments updateFragments
  rw [List.filterMap_map]
  rfl

theorem subOpt_filterMap (ctx : Ctx) (i : IssueW) (opts : IssueRenderOptions) (hL : Nat) :
    (subOptFragments ctx i opts hL).filterMap id = subissueFragments ctx i opts hL := by
  unfold subOptFragments subissueFragments
  cases i.subissues with
  | none => rfl
  | some sub =>
    rw [List.filterMap_map]
    rfl

theorem relOpt_filterMap (ctx : Ctx) (i : IssueW) (opts : IssueRenderOptions) (hL : Nat) :
    (relOptFragments ctx i opts hL).filterMap id = relatedFragments ctx i opts hL := by
  unfold relOptFragments relatedFragments
  cases i.relatedIssues with
  | none => rfl
  | some rel =>
    rw [List.filterMap_map]
    rfl

/-- After one resolution both collection-rendering options are set, so a
second resolution is the identity: this models rendering the same entity a
second time with the (mutated in place) options object of the first call. -/
theorem resolveRenderOptions_idem (i : IssueW) (o : IssueRenderOptions) :
    resolveRenderOptions i (resolveRenderOptions i o) = resolveRenderOptions i o := by
  unfold resolveRenderOptions
  by_cases h1 : o.subissues.isNone <;> by_cases h2 : o.relatedIssues.isNone <;>
    simp [h1, h2]

theorem resolveRenderOptions_header (i : IssueW) (o : IssueRenderOptions) :
    (resolveRenderOptions i o).header = o.header := by
  unfold resolveRenderOptions
  by_cases h1 : o.subissues.isNone <;> by_cases h2 : o.relatedIssues.isNone <;> simp [h1, h2]

theorem resolveRenderOptions_skip (i : IssueW) (o : IssueRenderOptions) :
    (resolveRenderOptions i o).skipIfEmpty = o.skipIfEmpty := by
  unfold resolveRenderOptions
  by_cases h1 : o.subissues.isNone <;> by_cases h2 : o.relatedIssues.isNone <;> simp [h1, h2]

theorem attach_map_fn {beta : Type} (l : List IssueW) (g : IssueW → beta) :
    l.attach.map (fun s => g s.1) = l.map g :=
  List.attach_map_coe l g

/-- The single unfolding of `renderIssue`: option resolution, then the body
applied to the three attempted-fragment lists. -/
theorem renderIssue_eq (ctx : Ctx) (i : IssueW) (o : IssueRenderOptions) (hL : Nat) :
    IssueW.renderIssue ctx i o hL =
      renderCore i (resolveRenderOptions i o) hL (IssueW.field ctx i)
        (updOptFragments ctx i (resolveRenderOptions i o) hL)
        (subOptFragments ctx i (resolveRenderOptions i o) hL)
        (relOptFragments ctx i (resolveRenderOptions i o) hL) := by
  unfold IssueW.renderIssue updOptFragments subOptFragments relOptFragments
  cases hsub : i.subissues with
  | none =>
    cases hrel : i.relatedIssues with
    | none => simp only [hsub, hrel]
    | some rel =>
      simp only [hsub, hrel]
      rw [attach_map_fn rel.issues
        (fun s => IssueW.renderIssue ctx s (resolveRenderOptions i o) (hL + 1))]
  | some sub =>
    cases hrel : i.relatedIssues with
    | none =>
      simp only [hsub, hrel]
      rw [attach_map_fn sub.issues
        (fun s => IssueW.renderIssue ctx s (resolveRenderOptions i o) (hL + 1))]
    | some rel =>
      simp only [hsub, hrel]
      rw [attach_map_fn sub.issues
        (fun s => IssueW.renderIssue ctx s (resolveRenderOptions i o) (hL + 1)),
        attach_map_fn rel.issues
          (fun s => IssueW.renderIssue ctx s (resolveRenderOptions i o) (hL + 1))]

theorem renderCore_empty_behavior (issue : IssueW) (options : IssueRenderOptions) (hL : Nat)
    (fv : String → String) (updFrs subFrs relFrs : List (Option Rendered))
    (hemp : renderIsEmpty options issue = true) :
    renderCore issue options hL fv updFrs subFrs relFrs =
      if options.skipIfEmpty || !options.header then none
      else some
        { markdown := (if options.header then hashes hL ++ " " ++ issue.header ++ "\n\n" else "")
            ++ "This Issue has no updates, or body content to render.\n\n",
          sources := [issue.url] } := by
  unfold renderCore
  rw [if_pos hemp]

theorem renderCore_sources_empty (issue : IssueW) (options : IssueRenderOptions) (hL : Nat)
    (fv : String → String) (updFrs subFrs relFrs : List (Option Rendered)) (r : Rendered)
    (hemp : renderIsEmpty options issue = true)
    (h : renderCore issue options hL fv updFrs subFrs relFrs = some r) :
    r.sources = [issue.url] := by
  rw [renderCore_empty_behavior issue options hL fv updFrs subFrs relFrs hemp] at h
  split at h
  · exact absurd h (by simp)
  · injection h with h
    rw [← h]

theorem renderCore_sources_main (issue : IssueW) (options : IssueRenderOptions) (hL : Nat)
    (fv : String → String) (updFrs subFrs relFrs : List (Option Rendered)) (r : Rendered)
    (hemp : renderIsEmpty options issue = false)
    (h : renderCore issue options hL fv updFrs subFrs relFrs = some r) :
    r.sources = issue.url ::
      ((if options.updates == 0 then [] else
          (updFrs.filterMap id).flatMap Rendered.sources) ++
       (if options.subissues.getD false && issue.subissues.isSome then
          (subFrs.filterMap id).flatMap Rendered.sources else []) ++
       (if options.relatedIssues.getD false && issue.relatedIssues.isSome then
          (relFrs.filterMap id).flatMap Rendered.sources else [])) := by
  unfold renderCore at h
  rw [if_neg (by simp [hemp])] at h
  injection h with h
  rw [← h]
  dsimp only
  by_cases hupd : options.updates == 0 <;>
    by_cases hsub : options.subissues.getD false && issue.subissues.isSome <;>
      by_cases hrel : options.relatedIssues.getD false && issue.relatedIssues.isSome <;>
        simp [hupd, hsub, hrel, foldl_renderStep_snd, List.append_assoc]

/-- C2: rendering is deterministic — re-rendering with the options object the
first render resolved in place yields the same result — and every produced
fragment's source list is exactly the entity's own URL followed by the
accumulated sources of every nested fragment it includes. -/
theorem renderIssue_deterministic_and_sources (ctx : Ctx) (i : IssueW)
    (o : IssueRenderOptions) (hL : Nat) :
    IssueW.renderIssue ctx i (resolveRenderOptions i o) hL = IssueW.renderIssue ctx i o hL ∧
    ∀ r, IssueW.renderIssue ctx i o hL = some r →
      r.sources = i.url :: includedNestedSources ctx i o hL := by
  constructor
  · rw [renderIssue_eq, renderIssue_eq, resolveRenderOptions_idem]
  · intro r h
    rw [renderIssue_eq] at h
    unfold includedNestedSources
    by_cases hemp : renderIsEmpty (resolveRenderOptions i o) i = true
    · rw [if_pos hemp,
        renderCore_sources_empty i (resolveRenderOptions i o) hL (IssueW.field ctx i)
          (updOptFragments ctx i (resolveRenderOptions i o) hL)
          (subOptFragments ctx i (resolveRenderOptions i o) hL)
          (relOptFragments ctx i (resolveRenderOptions i o) hL) r hemp h]
    · rw [Bool.not_eq_true] at hemp
      rw [if_neg (by simp [hemp]),
        renderCore_sources_main i (resolveRenderOptions i o) hL (IssueW.field ctx i)
          (updOptFragments ctx i (resolveRenderOptions i o) hL)
          (subOptFragments ctx i (resolveRenderOptions i o) hL)
          (relOptFragments ctx i (resolveRenderOptions i o) hL) r hemp h,
        updOpt_filterMap, subOpt_filterMap, relOpt_filterMap]

/-- An entity with a body and no other content, rendered with body requested
and skip-if-empty off. -/
def c2Issue : IssueW :=
  IssueW.mk { title := "T", body := "Hello", url := "https://github.com/o/r/issues/3" } none none

def c2Opts : IssueRenderOptions := { body := true, updates := 0, skipIfEmpty := false }

theorem renderIssue_deterministic_and_sources_witness :
    (∃ r, IssueW.renderIssue {} c2Issue c2Opts 3 = some r ∧
      r.sources = c2Issue.url :: includedNestedSources {} c2Issue c2Opts 3) ∧
    IssueW.renderIssue {} c2Issue (resolveRenderOptions c2Issue c2Opts) 3 =
      IssueW.renderIssue {} c2Issue c2Opts 3 := by
  have hr : IssueW.renderIssue {} c2Issue c2Opts 3 =
      some { markdown := "### [T](https://github.com/o/r/issues/3)\n\nHello\n\n",
             sources := ["https://github.com/o/r/issues/3"] } := by
    rw [renderIssue_eq]
    rfl
  exact ⟨⟨_, hr, (renderIssue_deterministic_and_sources {} c2Issue c2Opts 3).2 _ hr⟩,
    (renderIssue_deterministic_and_sources {} c2Issue c2Opts 3).1⟩

/-- C7: under the emptiness condition, the render is suppressed exactly when
skip-if-empty is set or no header was requested, and otherwise reduces to
the placeholder fragment — never both. -/
theorem renderIssue_empty_rule (ctx : Ctx) (i : IssueW) (o : IssueRenderOptions) (hL : Nat)
    (hempty : renderIsEmpty (resolveRenderOptions i o) i = true) :
    (o.skipIfEmpty = true ∨ o.header = false → IssueW.renderIssue ctx i o hL = none) ∧
    (o.skipIfEmpty = false ∧ o.header = true →
      IssueW.renderIssue ctx i o hL = some
        { markdown := hashes hL ++ " " ++ i.header ++ "\n\n" ++
            "This Issue has no updates, or body content to render.\n\n",
          sources := [i.url] }) := by
  rw [renderIssue_eq,
    renderCore_empty_behavior i (resolveRenderOptions i o) hL (IssueW.field ctx i)
      (updOptFragments ctx i (resolveRenderOptions i o) hL)
      (subOptFragments ctx i (resolveRenderOptions i o) hL)
      (relOptFragments ctx i (resolveRenderOptions i o) hL) hempty,
    resolveRenderOptions_skip, resolveRenderOptions_header]
  constructor
  · intro hcase
    rcases hcase with hs | hh
    · rw [if_pos (by simp [hs])]
    · rw [if_pos (by simp [hh])]
  · rintro ⟨hs, hh⟩
    rw [if_neg (by simp [hs, hh]), if_pos hh]

/-- An entity with nothing to render: no body, no updates, no sub-issues. -/
def c7Issue : IssueW :=
  IssueW.mk { title := "Empty", url := "https://github.com/o/r/issues/4" } none none

theorem renderIssue_empty_rule_witness :
    renderIsEmpty (resolveRenderOptions c7Issue {}) c7Issue = true ∧
    ({} : IssueRenderOptions).skipIfEmpty = true ∧
    IssueW.renderIssue {} c7Issue {} 3 = none ∧
    (({ skipIfEmpty := false } : IssueRenderOptions).skipIfEmpty = false ∧
      ({ skipIfEmpty := false } : IssueRenderOptions).header = true) ∧
    IssueW.renderIssue {} c7Issue { skipIfEmpty := false } 3 = some
      { markdown := hashes 3 ++ " " ++ c7Issue.header ++ "\n\n" ++
          "This Issue has no updates, or body content to render.\n\n",
        sources := [c7Issue.url] } := by
  refine ⟨rfl, rfl, (renderIssue_empty_rule {} c7Issue {} 3 rfl).1 (Or.inl rfl), ⟨rfl, rfl⟩,
    (renderIssue_empty_rule {} c7Issue { skipIfEmpty := false } 3 rfl).2 ⟨rfl, rfl⟩⟩

end Rollup
